import Mathlib

/-!
Shallow embedding of `data_steward/vocabulary.py` (OMOP vocabulary curation
utilities) and proofs about the claims of its specification.

Modelling conventions:
* CSV streams are modelled at the record level: `csv.reader` / `csv.writer`
  become lists of records, a record being a `List String` of field values.
* Line-oriented file iteration (`for row in fp`) becomes a `List String` of
  lines; each write to a file is one element of an output chunk list, and the
  file's content is the concatenation of the chunks.
* Python exceptions become `Except` / `Option` results.
* The regular expression end anchor `$` of Python `re` matches at the end of
  the string and also just before one final newline; `stripNl` models this.
* Python `\d` is modelled as the ASCII digits `0`-`9`.
-/

namespace Curation

/-- Boolean test that every character of the list is an ASCII digit
(model of the regex `\d` character class applied pointwise). -/
def isDigits (l : List Char) : Bool :=
  l.all (fun c => c.isDigit)

/-- Model of the Python `re` end anchor `$`: matching may stop either at the
end of the string or just before a single final newline, so the anchor in
effect lets one trailing newline be discarded before the shape test. -/
def stripNl (l : List Char) : List Char :=
  if l.getLast? == some '\n' then l.dropLast else l

/-- Shape test of `BQ_DATE_PATTERN` (`\d{4}-\d{2}-\d{2}`) against a whole
string: ten characters, digits and dashes in the canonical positions. -/
def bq_shape (l : List Char) : Bool :=
  l.length == 10 && isDigits (l.take 4) && (l.get? 4 == some '-') &&
    isDigits ((l.drop 5).take 2) && (l.get? 7 == some '-') && isDigits (l.drop 8)

/-- Shape test of `RAW_DATE_PATTERN` (`\d{8}`) against a whole string. -/
def raw_shape (l : List Char) : Bool :=
  l.length == 8 && isDigits l

/-- Model of `BQ_DATE_PATTERN.match(s)` succeeding: the anchored pattern
`\d{4}-\d{2}-\d{2}$` with Python `$` semantics (`stripNl`). -/
def bq_match (l : List Char) : Bool :=
  bq_shape (stripNl l)

/-- Model of `RAW_DATE_PATTERN.match(s)` succeeding: the anchored pattern
`\d{8}$` with Python `$` semantics (`stripNl`). -/
def raw_match (l : List Char) : Bool :=
  raw_shape (stripNl l)

/-- Embedding of `format_date_str`: return canonical `YYYY-MM-DD` input
unchanged, re-slice an eight-digit match into 4/2/2 groups joined by dashes,
and otherwise fail with the `ValueError` message of the source. -/
def format_date_str (s : String) : Except String String :=
  if bq_match s.toList then .ok s
  else if raw_match s.toList then
    .ok (String.mk (s.toList.take 4 ++ '-' :: (s.toList.drop 4).take 2
          ++ '-' :: (s.toList.drop 6).take 2))
  else .error ("Cannot parse value " ++ s ++ " as date")

/-- Transcription of the claim's phrase "canonical YYYY-MM-DD form": the
whole string has exactly the ten-character dashed shape. Used only to state
claims about `format_date_str`, never inside the embedding. -/
def specCanonicalDate (s : String) : Bool :=
  bq_shape s.toList

/-- Transcription of the claim's phrase "string consisting of exactly 8
digits". Used only to state claims about `format_date_str`. -/
def specEightDigit (s : String) : Bool :=
  raw_shape s.toList

/-- Boolean test that `pat` is a prefix of `s`, character by character. -/
def startsWithB : List Char → List Char → Bool
  | [], _ => true
  | _ :: _, [] => false
  | p :: ps, c :: cs => p == c && startsWithB ps cs

/-- Boolean test that `suf` is a suffix of `s`, the model of Python
`str.endswith`. -/
def endsWithB (suf s : List Char) : Bool :=
  startsWithB suf.reverse s.reverse

/-- Embedding of the header scan of `_transform_csv`: indexes of the header
fields whose name ends in `_date`. -/
def date_indexes (header : List String) : List Nat :=
  (header.enum.filter (fun p => endsWithB "_date".toList p.2.toList)).map (fun p => p.1)

/-- Embedding of the body of the `try` block of `_transform_csv` for one
record: each date index is read (an out-of-range read raises `IndexError`,
message `list index out of range`) and overwritten in place with the
normalized value. On failure the error carries the message together with the
record in its state at the moment of failure, exactly what the source
interpolates into the error message. -/
def normRow : List Nat → List String → Except (String × List String) (List String)
  | [], row => .ok row
  | i :: is, row =>
    match row.get? i with
    | none => .error ("list index out of range", row)
    | some v =>
      match format_date_str v with
      | .ok v' => normRow is (row.set i v')
      | .error msg => .error (msg, row)

/-- Embedding of the data-record loop of `_transform_csv`: each record either
goes, normalized, to the output stream or its error message (failure text and
row state) goes to the error stream, in input order. -/
def processRows (dis : List Nat) : List (List String) → List (List String) × List (String × List String)
  | [] => ([], [])
  | r :: rs =>
    let res := processRows dis rs
    match normRow dis r with
    | .ok r' => (r' :: res.1, res.2)
    | .error em => (res.1, em :: res.2)

/-- Embedding of `_transform_csv` (leading underscore dropped for Lean): the
first record is the header, written unchanged to the output stream; the
remaining records are processed by `processRows`. An empty stream makes
`next(csv_reader)` raise, modelled as `none`. The result pairs the full
output stream (header first) with the error stream. -/
def transform_csv : List (List String) → Option (List (List String) × List (String × List String))
  | [] => none
  | header :: rows =>
    let res := processRows (date_indexes header) rows
    some (header :: res.1, res.2)

/-- Kinds of `OSError` relevant to `transform_file`: `fileExists` is the
pre-existence failure of `os.makedirs`, `fileNotFound` is what `open` raises
on a path inside a missing directory, and the remaining kinds stand for any
other creation failure (for example a permission error). -/
inductive OSErrorKind where
  | fileExists
  | fileNotFound
  | permissionDenied
  | otherFailure
deriving DecidableEq, Repr

/-- Log line emitted by the `except OSError` handler of `transform_file`
(the source interpolates the directory path; modelled as a constant). -/
def makedirsLogMsg : String :=
  "Error directory already exists"

/-- Embedding of `transform_file`. The outcome of `os.makedirs` on the
`errors` subdirectory is an explicit argument; the source wraps only that
call in `try ... except OSError`, so every creation failure is caught there
and merely logged. The `errors` directory exists afterwards exactly when the
call succeeded or failed with pre-existence (`os.makedirs` raises
`FileExistsError` precisely when the target directory is already present).
The with-statement then opens the input, output and error streams in that
order: when the directory is missing, `open(err_file_name, 'w')` raises
`FileNotFoundError` outside any handler, aborting the transform before any
record is processed (the output file has merely been opened and truncated);
otherwise `_transform_csv` runs on the three streams. The second component
of the success payload collects the log lines. -/
def transform_file (mkdirs : Except OSErrorKind Unit)
    (records : List (List String)) :
    Except OSErrorKind
      (Option (List (List String) × List (String × List String)) × List String) :=
  let logs : List String :=
    match mkdirs with
    | .ok _ => []
    | .error _ => [makedirsLogMsg]
  match mkdirs with
  | .ok _ => .ok (transform_csv records, logs)
  | .error .fileExists => .ok (transform_csv records, logs)
  | .error _ => .error .fileNotFound

/-- Modelled from the spec: `DELIMITER` of the missing `common` module. The
source module's docstring says the vocabulary files are tab-separated. -/
def DELIMITER : String := "\t"

/-- Modelled from the spec: `AOU_GEN_ID` of the missing `common` module, the
reserved vocabulary id of the study-specific "general" vocabulary. -/
def AOU_GEN_ID : String := "AoU_General"

/-- Modelled from the spec: `AOU_CUSTOM_ID` of the missing `common` module,
the reserved vocabulary id of the study-specific "custom" vocabulary. -/
def AOU_CUSTOM_ID : String := "AoU_Custom"

/-- Modelled from the spec: the shape of `VOCABULARY_UPDATES` of the missing
`common` module, a fixed insertion-ordered mapping from reserved vocabulary
id to a five-field template row. An association list with unique keys models
the Python dict while letting the in-place mutation of a template row be
tracked by explicit state passing. -/
abbrev VocabUpdates : Type := List (String × List String)

/-- State update corresponding to the in-place assignment
`vocab_row[-2] = aou_vocab_version` seen through the mapping: the entry of
key `k` now holds the mutated row `r`. -/
def setRow (vu : VocabUpdates) (k : String) (r : List String) : VocabUpdates :=
  vu.map (fun p => if p.1 = k then (k, r) else p)

/-- Boolean test that `pat` occurs contiguously inside `s`, the model of the
Python substring test `pat in s`. -/
def containsSub (pat : List Char) : List Char → Bool
  | [] => startsWithB pat []
  | c :: cs => startsWithB pat (c :: cs) || containsSub pat cs

/-- Embedding of `_vocab_id_match` (leading underscore dropped): the first
key of `VOCABULARY_UPDATES`, in mapping order, that occurs as a substring of
`s`, otherwise `none`. -/
def vocab_id_match (vu : VocabUpdates) (s : String) : Option String :=
  (vu.map Prod.fst).find? (fun vid => containsSub vid.toList s.toList)

/-- Embedding of `get_aou_vocabulary_row`: look the template row up in the
mapping, overwrite its next-to-last field in place with the current directory
fingerprint (`version`, the value of `hash_dir(AOU_VOCAB_PATH)` at call
time), and return the delimiter-joined row together with the mutated mapping.
A missing key or a row shorter than two fields would raise in Python,
modelled as `none`. -/
def get_aou_vocabulary_row (vu : VocabUpdates) (vocab_id : String)
    (version : String) : Option (String × VocabUpdates) :=
  match vu.lookup vocab_id with
  | none => none
  | some row =>
    if 2 ≤ row.length then
      let row' := row.set (row.length - 2) version
      some (String.intercalate DELIMITER row', setRow vu vocab_id row')
    else none

/-- Embedding of the copy loop shared by `append_vocabulary` and
`append_concepts`: each input line whose text contains a reserved vocabulary
id is skipped with a warning (modelled by the matched id), every other line
is written unchanged, in input order. Result: (written lines, warned ids). -/
def copyFilter (vu : VocabUpdates) : List String → List String × List String
  | [] => ([], [])
  | l :: ls =>
    let res := copyFilter vu ls
    match vocab_id_match vu l with
    | some vid => (res.1, vid :: res.2)
    | none => (l :: res.1, res.2)

/-- Embedding of `append_vocabulary`: render the two synthetic rows (general
first, then custom, threading the mapping mutation), copy the surviving input
lines, then write the general row followed by a newline and finally the
custom row with no trailing separator. Result: (written chunks, warned ids,
final mapping state). -/
def append_vocabulary (version : String) (vu : VocabUpdates)
    (lines : List String) :
    Option (List String × List String × VocabUpdates) :=
  match get_aou_vocabulary_row vu AOU_GEN_ID version with
  | none => none
  | some (aou_general_row, vu1) =>
    match get_aou_vocabulary_row vu1 AOU_CUSTOM_ID version with
    | none => none
    | some (aou_custom_row, vu2) =>
      let res := copyFilter vu2 lines
      some (res.1 ++ [aou_general_row ++ "\n", aou_custom_row], res.2, vu2)

/-- Embedding of `append_concepts`: copy the surviving input lines, then
append the lines of the fixed custom-concept resource, skipping exactly one
leading record when the `csv.Sniffer().has_header` heuristic (an external
collaborator, its verdict passed as `has_header`) says the resource starts
with a header. Result: (written lines, warned ids). -/
def append_concepts (vu : VocabUpdates) (has_header : Bool)
    (inLines aouLines : List String) : List String × List String :=
  let res := copyFilter vu inLines
  let appended := if has_header then aouLines.drop 1 else aouLines
  (res.1 ++ appended, res.2)

/-- Boolean test that a character list contains no newline: the shape of the
body of a text line before its terminator. -/
def lineBody (l : List Char) : Bool :=
  l.all (fun c => !(c == '\n'))

/-- Boolean test that a character list is one newline-terminated text line:
nonempty, ending in a newline that is its only newline. -/
def isTermLine : List Char → Bool
  | [] => false
  | [c] => c == '\n'
  | c :: d :: ds => !(c == '\n') && isTermLine (d :: ds)

/-- Model of Python text-file line iteration over in-memory content: split
after every newline, keep the terminator on each line, and yield a final
unterminated line when the content does not end in a newline. -/
def linesKeep : List Char → List (List Char)
  | [] => []
  | c :: cs =>
    let rest := linesKeep cs
    if c == '\n' then ['\n'] :: rest
    else
      match rest with
      | [] => [[c]]
      | l :: ls => (c :: l) :: ls

/-- Lines obtained by re-reading a file whose byte content is `s`, the model
of feeding one run's written output back to a line-iterating consumer. -/
def splitLines (s : String) : List String :=
  (linesKeep s.toList).map String.mk

/-- Modelled from the spec: `CONCEPT` of the missing `common` module, the
logical resource name compared against lower-cased base names. -/
def CONCEPT : String := "concept"

/-- Modelled from the spec: `VOCABULARY` of the missing `common` module. -/
def VOCABULARY : String := "vocabulary"

/-- Lower-casing of a string, the model of Python `str.lower` (ASCII). -/
def lowerStr (s : String) : String :=
  String.mk (s.toList.map Char.toLower)

/-- Helper for `os.path.splitext` on a separator-free name whose first
character is not a dot: keep everything before the last dot, the whole list
when it has no dot, and nothing when the only dot content is the extension. -/
def dropAfterLastDot : List Char → List Char
  | [] => []
  | c :: cs =>
    if cs.contains '.' then c :: dropAfterLastDot cs
    else if c == '.' then []
    else c :: cs

/-- Model of the root part of `os.path.splitext` for a plain file name (no
path separators): leading dots never start an extension, and the extension
begins at the last dot that has a non-dot character before it. -/
def splitext_root (s : List Char) : List Char :=
  (s.takeWhile (fun c => c == '.')) ++ dropAfterLastDot (s.dropWhile (fun c => c == '.'))

/-- Embedding of `os.path.splitext(file_name.lower())[0]` as used by
`add_aou_vocabs` to derive a table name from a directory entry. -/
def table_name_of (file_name : String) : String :=
  String.mk (splitext_root (lowerStr file_name).toList)

/-- Embedding of the discovery loop of `add_aou_vocabs`: scan the directory
entries in order, remembering the last entry whose table name is `concept`
and the last whose table name is `vocabulary` (the source path join with the
directory is dropped; the model keeps the entry name). -/
def findStep (acc : Option String × Option String) (fn : String) :
    Option String × Option String :=
  if table_name_of fn = CONCEPT then (some fn, acc.2)
  else if table_name_of fn = VOCABULARY then (acc.1, some fn)
  else acc

/-- State threading of the discovery loop of `add_aou_vocabs`. -/
def findPaths (file_names : List String) : Option String × Option String :=
  file_names.foldl findStep (none, none)

/-- Embedding of `add_aou_vocabs`: locate the concept and vocabulary files
case-insensitively; raise `IOError` (modelled as `.error`, raised before any
write, so an error result carries no output at all) when either is missing,
checking the concept file first; otherwise run `append_concepts` and then
`append_vocabulary`. File contents are supplied by the `contents` map and the
writes are the returned payload. -/
def add_aou_vocabs (version : String) (vu : VocabUpdates) (has_header : Bool)
    (aouLines : List String) (file_names : List String)
    (contents : String → List String) :
    Except String ((String × List String) × (String × List String) × VocabUpdates) :=
  let paths := findPaths file_names
  match paths.1 with
  | none => .error "CONCEPT.csv was not found"
  | some concept_in_path =>
    match paths.2 with
    | none => .error "VOCABULARY.csv was not found"
    | some vocabulary_in_path =>
      let conceptRes := append_concepts vu has_header (contents concept_in_path) aouLines
      match append_vocabulary version vu (contents vocabulary_in_path) with
      | none => .error "TypeError"
      | some (vocabOut, _warns, vu') =>
        .ok ((concept_in_path, conceptRes.1), (vocabulary_in_path, vocabOut), vu')

/-! Helper lemmas. -/

theorem mem_of_getLast?_eq {l : List Char} {a : Char} (h : l.getLast? = some a) :
    a ∈ l := by
  induction l with
  | nil => simp at h
  | cons x t ih =>
    cases t with
    | nil =>
      simp only [List.getLast?_singleton, Option.some.injEq] at h
      simp [h]
    | cons y u =>
      rw [List.getLast?_cons_cons] at h
      exact List.mem_cons_of_mem x (ih h)

theorem stripNl_of_all_digits {l : List Char} (hd : isDigits l = true) :
    stripNl l = l := by
  unfold stripNl
  cases hg : l.getLast? with
  | none => simp
  | some c =>
    have hc : c.isDigit = true := by
      rw [isDigits, List.all_eq_true] at hd
      exact hd c (mem_of_getLast?_eq hg)
    have hcn : c ≠ '\n' := by
      intro he
      rw [he] at hc
      simp [Char.isDigit] at hc
    simp [hcn]

theorem processRows_length (dis : List Nat) (rows : List (List String)) :
    (processRows dis rows).1.length + (processRows dis rows).2.length = rows.length := by
  induction rows with
  | nil => rfl
  | cons r rs ih =>
    simp only [processRows]
    cases h : normRow dis r with
    | ok r' =>
      simp only [h, List.length_cons]
      omega
    | error em =>
      simp only [h, List.length_cons]
      omega

/-! Claim theorems: DateNormalizer and RecordTransformer. -/

/-- C1: for every record set whose first record is the header, the records
written to the output stream past the header plus the records diverted to
the error stream number exactly the input data records. -/
theorem c1_row_conservation (header : List String) (rows : List (List String))
    (outs : List (List String)) (errs : List (String × List String))
    (h : transform_csv (header :: rows) = some (header :: outs, errs)) :
    outs.length + errs.length = rows.length := by
  have hp := processRows_length (date_indexes header) rows
  simp only [transform_csv, Option.some.injEq, Prod.mk.injEq, List.cons.injEq] at h
  obtain ⟨⟨-, h1⟩, h2⟩ := h
  rw [← h1, ← h2]
  exact hp

/-- Witness for C1 at a concrete record set: one good row and one bad row. -/
theorem c1_row_conservation_witness :
    ([["2020-01-01"]] : List (List String)).length
      + ([("Cannot parse value bad as date", ["bad"])] : List (String × List String)).length
      = ([["20200101"], ["bad"]] : List (List String)).length :=
  c1_row_conservation ["a_date"] [["20200101"], ["bad"]] [["2020-01-01"]]
    [("Cannot parse value bad as date", ["bad"])] rfl

/-- C2 counterexample: in the record `["20200101", "bad"]` under header
`["a_date", "b_date"]` the first date field is normalized in place before the
second one fails, so the record carried by the error message is
`["2020-01-01", "bad"]`, which differs from the raw as-read record. -/
theorem c2_raw_record_counterexample :
    transform_csv [["a_date", "b_date"], ["20200101", "bad"]] =
      some ([["a_date", "b_date"]],
        [("Cannot parse value bad as date", ["2020-01-01", "bad"])]) ∧
      (["2020-01-01", "bad"] : List String) ≠ ["20200101", "bad"] := by
  exact ⟨rfl, by decide⟩

/-- C2 amended: when a date field of a record fails to normalize or a date
index is out of range, the record is not written to the output stream; a
message carrying the failure and the record in its state at the moment of
failure (earlier date fields already normalized in place) goes to the error
stream, and the remaining records are processed normally. -/
theorem c2_error_isolation (header row : List String) (rest : List (List String))
    (e : String) (mrow : List String)
    (h : normRow (date_indexes header) row = .error (e, mrow)) :
    transform_csv (header :: row :: rest) =
      some (header :: (processRows (date_indexes header) rest).1,
        (e, mrow) :: (processRows (date_indexes header) rest).2) := by
  simp [transform_csv, processRows, h]

/-- Witness for C2 amended: the bad record is diverted and the following
record is still transformed. -/
theorem c2_error_isolation_witness :
    transform_csv [["a_date", "b_date"], ["20200101", "bad"], ["20200102", "20200103"]] =
      some ([["a_date", "b_date"], ["2020-01-02", "2020-01-03"]],
        [("Cannot parse value bad as date", ["2020-01-01", "bad"])]) := by
  have h := c2_error_isolation ["a_date", "b_date"] ["20200101", "bad"]
    [["20200102", "20200103"]] "Cannot parse value bad as date"
    ["2020-01-01", "bad"] rfl
  rw [h]
  exact rfl

/-- C5: an eight-digit string is re-sliced into the 4/2/2 groups joined by
dashes, exactly the `D[0:4] + "-" + D[4:6] + "-" + D[6:8]` of the claim. -/
theorem c5_eight_digit_slices (s : String)
    (h8 : s.toList.length = 8) (hd : isDigits s.toList = true) :
    format_date_str s = .ok (String.mk
      (s.toList.take 4 ++ '-' :: (s.toList.drop 4).take 2
        ++ '-' :: (s.toList.drop 6).take 2)) := by
  have h8' : s.length = 8 := h8
  have hd' : isDigits s.data = true := hd
  have hstrip' : stripNl s.data = s.data := stripNl_of_all_digits hd
  have hbq : bq_match s.data = false := by
    rw [bq_match, hstrip', bq_shape]
    simp [h8']
  have hraw : raw_match s.data = true := by
    rw [raw_match, hstrip', raw_shape]
    simp [h8', hd']
  rw [format_date_str, if_neg (by simp [hbq]), if_pos (by simp [hraw])]

/-- Witness for C5 at the eight-digit string 19700101. -/
theorem c5_eight_digit_slices_witness :
    format_date_str "19700101" = .ok "1970-01-01" := by
  rw [c5_eight_digit_slices "19700101" (by decide) (by decide)]
  exact rfl

/-- C6 counterexample: the string of eight digits followed by one newline is
neither in canonical YYYY-MM-DD form nor an 8-digit string, yet
`format_date_str` accepts it (the Python `$` anchor matches before a final
newline) and returns a formatted date instead of failing. -/
theorem c6_trailing_newline_counterexample :
    specCanonicalDate "20200101\n" = false ∧ specEightDigit "20200101\n" = false ∧
      format_date_str "20200101\n" = .ok "2020-01-01" := by
  exact ⟨by decide, by decide, rfl⟩

/-- C6 amended: every input string rejected by both anchored patterns — that
is, any string that even after discarding one trailing newline is neither in
canonical YYYY-MM-DD form nor an 8-digit string — makes `format_date_str`
fail with the ValueError message carrying the offending value. -/
theorem c6_invalid_date_error (s : String)
    (h1 : bq_match s.toList = false) (h2 : raw_match s.toList = false) :
    format_date_str s = .error ("Cannot parse value " ++ s ++ " as date") := by
  have h1' : bq_match s.data = false := h1
  have h2' : raw_match s.data = false := h2
  rw [format_date_str, if_neg (by simp [h1']), if_neg (by simp [h2'])]

/-- Witness for C6 amended at the claim's instance: the slashed date form is
rejected with the ValueError message. -/
theorem c6_invalid_date_error_witness :
    format_date_str "2020/01/01" = .error "Cannot parse value 2020/01/01 as date" := by
  rw [c6_invalid_date_error "2020/01/01" (by decide) (by decide)]
  exact rfl

/-- C9: pre-existence of the `errors` subdirectory is treated as success —
the handler merely logs and the transform runs — while every creation
failure other than pre-existence is fatal to the file transform: the
directory is then missing, so opening the error file raises
`FileNotFoundError` outside any handler and the transform aborts before
processing any record. -/
theorem c9_creation_failure_fatal (e : OSErrorKind)
    (records : List (List String)) :
    transform_file (.error .fileExists) records =
        .ok (transform_csv records, [makedirsLogMsg]) ∧
      (e ≠ .fileExists →
        transform_file (.error e) records = .error .fileNotFound) := by
  refine ⟨rfl, fun he => ?_⟩
  cases e with
  | fileExists => exact absurd rfl he
  | fileNotFound => rfl
  | permissionDenied => rfl
  | otherFailure => rfl

/-- Witness for C9: pre-existence lets the transform run and succeed, while
a permission failure aborts it with the file-not-found error of the
error-file open. -/
theorem c9_creation_failure_fatal_witness :
    transform_file (.error .fileExists) [["x"]] =
        .ok (some ([["x"]], []), [makedirsLogMsg]) ∧
      transform_file (.error .permissionDenied) [["x"]] = .error .fileNotFound := by
  have h := c9_creation_failure_fatal OSErrorKind.permissionDenied [["x"]]
  exact ⟨h.1, h.2 (by decide)⟩

/-! Helper lemmas about the vocabulary-update mapping. -/

theorem copyFilter_eq (vu : VocabUpdates) (lines : List String) :
    copyFilter vu lines =
      (lines.filter (fun l => (vocab_id_match vu l).isNone),
       lines.filterMap (fun l => vocab_id_match vu l)) := by
  induction lines with
  | nil => rfl
  | cons l ls ih =>
    simp only [copyFilter, ih]
    cases h : vocab_id_match vu l with
    | some vid => simp [List.filter_cons, List.filterMap_cons, h]
    | none => simp [List.filter_cons, List.filterMap_cons, h]

theorem keys_setRow (vu : VocabUpdates) (k : String) (r : List String) :
    (setRow vu k r).map Prod.fst = vu.map Prod.fst := by
  induction vu with
  | nil => rfl
  | cons p ps ih =>
    simp only [setRow, List.map_cons] at ih ⊢
    by_cases h : p.1 = k
    · simp [h, ih]
    · simp [h, ih]

theorem vocab_id_match_setRow (vu : VocabUpdates) (k : String) (r : List String)
    (s : String) :
    vocab_id_match (setRow vu k r) s = vocab_id_match vu s := by
  rw [vocab_id_match, vocab_id_match, keys_setRow]

theorem lookup_setRow_self (vu : VocabUpdates) (k : String) (r row : List String)
    (h : vu.lookup k = some row) : (setRow vu k r).lookup k = some r := by
  induction vu with
  | nil => simp [List.lookup] at h
  | cons p ps ih =>
    simp only [setRow, List.map_cons]
    by_cases hk : p.1 = k
    · rw [if_pos hk]
      simp [List.lookup]
    · rw [if_neg hk]
      have hbeq : (k == p.1) = false := beq_eq_false_iff_ne.mpr (fun he => hk he.symm)
      simp only [List.lookup, hbeq] at h ⊢
      exact ih h

theorem lookup_setRow_ne (vu : VocabUpdates) (k k' : String) (r : List String)
    (h : k ≠ k') : (setRow vu k' r).lookup k = vu.lookup k := by
  induction vu with
  | nil => rfl
  | cons p ps ih =>
    simp only [setRow, List.map_cons]
    by_cases hk : p.1 = k'
    · rw [if_pos hk]
      have hbeq : (k == k') = false := beq_eq_false_iff_ne.mpr h
      have hbp : (k == p.1) = false := by rw [hk]; exact hbeq
      simp only [List.lookup, hbeq, hbp]
      exact ih
    · rw [if_neg hk]
      simp only [List.lookup]
      cases hkp : (k == p.1) with
      | true => simp
      | false => exact ih

theorem setRow_setRow_same (vu : VocabUpdates) (k : String) (r r' : List String) :
    setRow (setRow vu k r) k r' = setRow vu k r' := by
  induction vu with
  | nil => rfl
  | cons p ps ih =>
    simp only [setRow, List.map_cons] at ih ⊢
    by_cases h : p.1 = k
    · simp [h, ih]
    · simp [h, ih]

theorem setRow_comm (vu : VocabUpdates) (k1 k2 : String) (r1 r2 : List String)
    (h : k1 ≠ k2) :
    setRow (setRow vu k1 r1) k2 r2 = setRow (setRow vu k2 r2) k1 r1 := by
  induction vu with
  | nil => rfl
  | cons p ps ih =>
    simp only [setRow, List.map_cons] at ih ⊢
    by_cases h1 : p.1 = k1
    · have h2 : p.1 ≠ k2 := fun he => h (h1.symm.trans he)
      simp [h1, h2, h, ih]
    · by_cases h2 : p.1 = k2
      · simp [h1, h2, Ne.symm h, ih]
      · simp [h1, h2, ih]

theorem get_aou_vocabulary_row_eq (vu : VocabUpdates) (vid version : String)
    (row : List String) (h : vu.lookup vid = some row) (hl : row.length = 5) :
    get_aou_vocabulary_row vu vid version =
      some (String.intercalate DELIMITER (row.set 3 version),
        setRow vu vid (row.set 3 version)) := by
  rw [get_aou_vocabulary_row, h]
  simp [hl]

theorem append_vocabulary_spec (version : String) (vu : VocabUpdates)
    (lines : List String) (g c : List String)
    (hg : vu.lookup AOU_GEN_ID = some g) (hgl : g.length = 5)
    (hc : vu.lookup AOU_CUSTOM_ID = some c) (hcl : c.length = 5) :
    append_vocabulary version vu lines =
      some ((lines.filter (fun l => (vocab_id_match vu l).isNone))
          ++ [String.intercalate DELIMITER (g.set 3 version) ++ "\n",
              String.intercalate DELIMITER (c.set 3 version)],
        lines.filterMap (fun l => vocab_id_match vu l),
        setRow (setRow vu AOU_GEN_ID (g.set 3 version))
          AOU_CUSTOM_ID (c.set 3 version)) := by
  have hne : AOU_GEN_ID ≠ AOU_CUSTOM_ID := by decide
  have h1 := get_aou_vocabulary_row_eq vu AOU_GEN_ID version g hg hgl
  have hc1 : (setRow vu AOU_GEN_ID (g.set 3 version)).lookup AOU_CUSTOM_ID = some c := by
    rw [lookup_setRow_ne _ _ _ _ (Ne.symm hne)]
    exact hc
  have h2 := get_aou_vocabulary_row_eq (setRow vu AOU_GEN_ID (g.set 3 version))
    AOU_CUSTOM_ID version c hc1 hcl
  simp only [append_vocabulary, h1, h2, copyFilter_eq]
  have hmatch : ∀ l, vocab_id_match
      (setRow (setRow vu AOU_GEN_ID (g.set 3 version)) AOU_CUSTOM_ID (c.set 3 version)) l
      = vocab_id_match vu l := fun l => by
    rw [vocab_id_match_setRow, vocab_id_match_setRow]
  simp [hmatch]

/-- C3: `append_vocabulary` writes exactly the input records free of
reserved-vocabulary-id tokens, unchanged and in input order, then the two
synthetic rows in the fixed order general then custom, each delimiter-joined
with its version field (position 3 of the 5-field template) set to the
current fingerprint; the general row is followed by a newline and the final
custom row carries no trailing separator. -/
theorem c3_append_vocabulary (version : String) (vu : VocabUpdates)
    (lines : List String) (g c : List String)
    (hg : vu.lookup AOU_GEN_ID = some g) (hgl : g.length = 5)
    (hc : vu.lookup AOU_CUSTOM_ID = some c) (hcl : c.length = 5) :
    append_vocabulary version vu lines =
      some ((lines.filter (fun l => (vocab_id_match vu l).isNone))
          ++ [String.intercalate DELIMITER (g.set 3 version) ++ "\n",
              String.intercalate DELIMITER (c.set 3 version)],
        lines.filterMap (fun l => vocab_id_match vu l),
        setRow (setRow vu AOU_GEN_ID (g.set 3 version))
          AOU_CUSTOM_ID (c.set 3 version)) :=
  append_vocabulary_spec version vu lines g c hg hgl hc hcl

theorem filter_idem {α : Type} (p : α → Bool) (l : List α) :
    (l.filter p).filter p = l.filter p := by
  induction l with
  | nil => rfl
  | cons x t ih =>
    by_cases h : p x = true
    · simp [List.filter_cons, h, ih]
    · simp [List.filter_cons, h, ih]

/-- Witness for C3 at a concrete vocabulary file: the conflicting line is
dropped, the surviving line copied, and the two synthetic rows appended with
the fingerprint in the version slot. -/
theorem c3_append_vocabulary_witness :
    append_vocabulary "v"
      [("AoU_General", ["AoU_General", "AoU General", "ref", "x", "44819268"]),
       ("AoU_Custom", ["AoU_Custom", "AoU Custom", "ref", "y", "0"])]
      ["SNOMED\tfoo\n", "OMOP AoU_Custom legacy\n"] =
      some (["SNOMED\tfoo\n",
             "AoU_General\tAoU General\tref\tv\t44819268\n",
             "AoU_Custom\tAoU Custom\tref\tv\t0"],
            ["AoU_Custom"],
            [("AoU_General", ["AoU_General", "AoU General", "ref", "v", "44819268"]),
             ("AoU_Custom", ["AoU_Custom", "AoU Custom", "ref", "v", "0"])]) := by
  rw [c3_append_vocabulary "v"
    [("AoU_General", ["AoU_General", "AoU General", "ref", "x", "44819268"]),
     ("AoU_Custom", ["AoU_Custom", "AoU Custom", "ref", "y", "0"])]
    ["SNOMED\tfoo\n", "OMOP AoU_Custom legacy\n"]
    ["AoU_General", "AoU General", "ref", "x", "44819268"]
    ["AoU_Custom", "AoU Custom", "ref", "y", "0"] rfl rfl rfl rfl]
  exact rfl

theorem lineBody_cons (x : Char) (xs : List Char) (h : lineBody (x :: xs) = true) :
    (x == '\n') = false ∧ lineBody xs = true := by
  rw [lineBody, List.all_cons, Bool.and_eq_true] at h
  refine ⟨?_, h.2⟩
  have hx := h.1
  cases hb : (x == '\n') with
  | false => rfl
  | true => rw [hb] at hx; simp at hx

theorem linesKeep_cons_ne (x : Char) (cs : List Char) (hx : (x == '\n') = false) :
    linesKeep (x :: cs) =
      match linesKeep cs with
      | [] => [[x]]
      | l :: ls => (x :: l) :: ls := by
  simp only [linesKeep, hx]
  simp

theorem linesKeep_body (b : List Char) (hb : lineBody b = true) (hne : b ≠ []) :
    linesKeep b = [b] := by
  induction b with
  | nil => exact absurd rfl hne
  | cons x xs ih =>
    obtain ⟨hx, hxs⟩ := lineBody_cons x xs hb
    cases xs with
    | nil => simp [linesKeep, hx]
    | cons y ys =>
      have hrec : linesKeep (y :: ys) = [y :: ys] := ih hxs (List.cons_ne_nil y ys)
      rw [linesKeep_cons_ne x (y :: ys) hx, hrec]

theorem linesKeep_append_termLine (b rest : List Char) (hb : lineBody b = true) :
    linesKeep (b ++ '\n' :: rest) = (b ++ ['\n']) :: linesKeep rest := by
  induction b with
  | nil => simp [linesKeep]
  | cons x xs ih =>
    obtain ⟨hx, hxs⟩ := lineBody_cons x xs hb
    rw [List.cons_append]
    simp only [linesKeep, ih hxs, hx]
    simp

theorem isTermLine_decomp (l : List Char) (h : isTermLine l = true) :
    ∃ b, l = b ++ ['\n'] ∧ lineBody b = true := by
  induction l with
  | nil => simp [isTermLine] at h
  | cons x xs ih =>
    cases xs with
    | nil =>
      have hx : x = '\n' := by simpa [isTermLine] using h
      exact ⟨[], by simp [hx], rfl⟩
    | cons y ys =>
      rw [isTermLine, Bool.and_eq_true] at h
      obtain ⟨b, hb, hbody⟩ := ih h.2
      refine ⟨x :: b, by rw [List.cons_append, hb], ?_⟩
      rw [lineBody, List.all_cons, Bool.and_eq_true]
      exact ⟨h.1, hbody⟩

theorem isTermLine_append_nl (b : List Char) (hb : lineBody b = true) :
    isTermLine (b ++ ['\n']) = true := by
  induction b with
  | nil => rfl
  | cons x xs ih =>
    obtain ⟨hx, hxs⟩ := lineBody_cons x xs hb
    cases xs with
    | nil => simp [isTermLine, hx]
    | cons y ys =>
      rw [List.cons_append, List.cons_append]
      show (!(x == '\n') && isTermLine (y :: (ys ++ ['\n']))) = true
      rw [Bool.and_eq_true]
      refine ⟨by simp [hx], ?_⟩
      rw [← List.cons_append]
      exact ih hxs

theorem linesKeep_flatten (ls : List (List Char)) (last : List Char)
    (h : ∀ l ∈ ls, isTermLine l = true)
    (hb : lineBody last = true) (hne : last ≠ []) :
    linesKeep (ls.flatten ++ last) = ls ++ [last] := by
  induction ls with
  | nil =>
    simp only [List.flatten_nil, List.nil_append]
    exact linesKeep_body last hb hne
  | cons l rest ih =>
    obtain ⟨b, hl, hbody⟩ := isTermLine_decomp l (h l (List.mem_cons_self l rest))
    subst hl
    have hre : ((b ++ ['\n']) :: rest).flatten ++ last =
        b ++ '\n' :: (rest.flatten ++ last) := by
      simp
    rw [hre, linesKeep_append_termLine b _ hbody,
      ih (fun x hx => h x (List.mem_cons_of_mem _ hx))]
    simp

theorem toList_string_join (ls : List String) :
    (String.join ls).toList = (ls.map String.toList).flatten := by
  have aux : ∀ (l : List String) (acc : String),
      (List.foldl (fun r s => r ++ s) acc l).toList =
        acc.toList ++ (l.map String.toList).flatten := by
    intro l
    induction l with
    | nil => intro acc; simp
    | cons s ss ih =>
      intro acc
      rw [List.foldl_cons, ih (acc ++ s)]
      simp [String.data_append]
  rw [String.join, aux]
  simp

theorem splitLines_writes (ls : List String) (last : String)
    (h : ∀ l ∈ ls, isTermLine l.toList = true)
    (hb : lineBody last.toList = true) (hne : last ≠ "") :
    splitLines (String.join (ls ++ [last])) = ls ++ [last] := by
  have hl' : ∀ l ∈ ls.map String.toList, isTermLine l = true := by
    intro l hl
    rw [List.mem_map] at hl
    obtain ⟨s, hs, rfl⟩ := hl
    exact h s hs
  have hn' : last.toList ≠ [] := by
    intro hl
    apply hne
    exact congrArg String.mk hl
  rw [splitLines, toList_string_join, List.map_append, List.flatten_append]
  simp only [List.map_cons, List.map_nil, List.flatten_cons, List.flatten_nil,
    List.append_nil]
  rw [linesKeep_flatten (ls.map String.toList) last.toList hl' hb hn']
  rw [List.map_append, List.map_map]
  have hid : ∀ l : List String, List.map (String.mk ∘ String.toList) l = l := by
    intro l
    induction l with
    | nil => rfl
    | cons a as iha =>
      show (String.mk ∘ String.toList) a :: List.map (String.mk ∘ String.toList) as = a :: as
      rw [iha]
      exact rfl
  rw [hid ls]
  rfl

/-- C4 counterexample: on a single-line input file with content "abc" (no
trailing newline, no reserved token) the first run writes "abc" with the
general row glued directly after it; re-reading the written bytes line by
line, as the program does when its output is fed back, yields a merged first
line containing a reserved id, so the second run drops it and "abc" is lost
— the second content differs from the first, refuting the fixed point. -/
theorem c4_not_fixed_point_counterexample :
    append_vocabulary "v"
      [("AoU_General", ["AoU_General", "AoU General", "ref", "x", "44819268"]),
       ("AoU_Custom", ["AoU_Custom", "AoU Custom", "ref", "y", "0"])]
      ["abc"] =
      some (["abc", "AoU_General\tAoU General\tref\tv\t44819268\n",
             "AoU_Custom\tAoU Custom\tref\tv\t0"], [],
            [("AoU_General", ["AoU_General", "AoU General", "ref", "v", "44819268"]),
             ("AoU_Custom", ["AoU_Custom", "AoU Custom", "ref", "v", "0"])]) ∧
      splitLines (String.join ["abc", "AoU_General\tAoU General\tref\tv\t44819268\n",
          "AoU_Custom\tAoU Custom\tref\tv\t0"]) =
        ["abcAoU_General\tAoU General\tref\tv\t44819268\n",
         "AoU_Custom\tAoU Custom\tref\tv\t0"] ∧
      append_vocabulary "v"
        [("AoU_General", ["AoU_General", "AoU General", "ref", "v", "44819268"]),
         ("AoU_Custom", ["AoU_Custom", "AoU Custom", "ref", "v", "0"])]
        ["abcAoU_General\tAoU General\tref\tv\t44819268\n",
         "AoU_Custom\tAoU Custom\tref\tv\t0"] =
        some (["AoU_General\tAoU General\tref\tv\t44819268\n",
               "AoU_Custom\tAoU Custom\tref\tv\t0"],
              ["AoU_General", "AoU_Custom"],
              [("AoU_General", ["AoU_General", "AoU General", "ref", "v", "44819268"]),
               ("AoU_Custom", ["AoU_Custom", "AoU Custom", "ref", "v", "0"])]) ∧
      String.join ["AoU_General\tAoU General\tref\tv\t44819268\n",
          "AoU_Custom\tAoU Custom\tref\tv\t0"] ≠
        String.join ["abc", "AoU_General\tAoU General\tref\tv\t44819268\n",
          "AoU_Custom\tAoU Custom\tref\tv\t0"] := by
  refine ⟨rfl, rfl, rfl, ?_⟩
  decide

/-- C4 amended: when every input line is newline-terminated, re-reading the
first run's written bytes line by line returns exactly the written chunks,
and running `append_vocabulary` on them with the same directory fingerprint
drops the two previously appended synthetic rows (each contains its reserved
id as a token) and re-appends identical rows, so content and mapping state
are a fixed point; when the last surviving input line lacks its newline the
general row is glued onto it and the fixed point fails. -/
theorem c4_fixed_point (version : String) (vu : VocabUpdates) (lines : List String)
    (g c : List String) (out1 warns1 : List String) (vu2 : VocabUpdates)
    (hg : vu.lookup AOU_GEN_ID = some g) (hgl : g.length = 5)
    (hc : vu.lookup AOU_CUSTOM_ID = some c) (hcl : c.length = 5)
    (hgin : (vocab_id_match vu
      (String.intercalate DELIMITER (g.set 3 version) ++ "\n")).isSome = true)
    (hcin : (vocab_id_match vu
      (String.intercalate DELIMITER (c.set 3 version))).isSome = true)
    (hlines : ∀ l ∈ lines, isTermLine l.toList = true)
    (hgrow : lineBody (String.intercalate DELIMITER (g.set 3 version)).toList = true)
    (hcrow : lineBody (String.intercalate DELIMITER (c.set 3 version)).toList = true)
    (hcne : String.intercalate DELIMITER (c.set 3 version) ≠ "")
    (h1 : append_vocabulary version vu lines = some (out1, warns1, vu2)) :
    splitLines (String.join out1) = out1 ∧
      ∃ warns2, append_vocabulary version vu2 (splitLines (String.join out1)) =
        some (out1, warns2, vu2) := by
  have hne : AOU_GEN_ID ≠ AOU_CUSTOM_ID := by decide
  rw [append_vocabulary_spec version vu lines g c hg hgl hc hcl] at h1
  simp only [Option.some.injEq, Prod.mk.injEq] at h1
  obtain ⟨hout, -, hvu2⟩ := h1
  subst hvu2
  subst hout
  have hterm : ∀ l ∈ List.filter (fun l => (vocab_id_match vu l).isNone) lines ++
      [String.intercalate DELIMITER (g.set 3 version) ++ "\n"],
      isTermLine l.toList = true := by
    intro l hl
    rw [List.mem_append] at hl
    cases hl with
    | inl hmem => exact hlines l (List.mem_of_mem_filter hmem)
    | inr hmem =>
      rw [List.mem_singleton] at hmem
      subst hmem
      have hsplit2 : (String.intercalate DELIMITER (g.set 3 version) ++ "\n").toList =
          (String.intercalate DELIMITER (g.set 3 version)).toList ++ ['\n'] :=
        String.data_append _ _
      rw [hsplit2]
      exact isTermLine_append_nl _ hgrow
  have hre : List.filter (fun l => (vocab_id_match vu l).isNone) lines ++
      [String.intercalate DELIMITER (g.set 3 version) ++ "\n",
       String.intercalate DELIMITER (c.set 3 version)] =
      (List.filter (fun l => (vocab_id_match vu l).isNone) lines ++
        [String.intercalate DELIMITER (g.set 3 version) ++ "\n"]) ++
        [String.intercalate DELIMITER (c.set 3 version)] := by
    simp
  have hsplit : splitLines (String.join
      (List.filter (fun l => (vocab_id_match vu l).isNone) lines ++
        [String.intercalate DELIMITER (g.set 3 version) ++ "\n",
         String.intercalate DELIMITER (c.set 3 version)])) =
      List.filter (fun l => (vocab_id_match vu l).isNone) lines ++
        [String.intercalate DELIMITER (g.set 3 version) ++ "\n",
         String.intercalate DELIMITER (c.set 3 version)] := by
    rw [hre]
    exact splitLines_writes _ _ hterm hcrow hcne
  refine ⟨hsplit, ?_⟩
  rw [hsplit]
  have hlookupG : (setRow (setRow vu AOU_GEN_ID (g.set 3 version))
      AOU_CUSTOM_ID (c.set 3 version)).lookup AOU_GEN_ID = some (g.set 3 version) := by
    rw [lookup_setRow_ne _ _ _ _ hne]
    exact lookup_setRow_self vu AOU_GEN_ID (g.set 3 version) g hg
  have hcmid : (setRow vu AOU_GEN_ID (g.set 3 version)).lookup AOU_CUSTOM_ID = some c := by
    rw [lookup_setRow_ne _ _ _ _ (Ne.symm hne)]
    exact hc
  have hlookupC : (setRow (setRow vu AOU_GEN_ID (g.set 3 version))
      AOU_CUSTOM_ID (c.set 3 version)).lookup AOU_CUSTOM_ID = some (c.set 3 version) :=
    lookup_setRow_self _ AOU_CUSTOM_ID (c.set 3 version) c hcmid
  have hlg : (g.set 3 version).length = 5 := by
    rw [List.length_set]
    exact hgl
  have hlc : (c.set 3 version).length = 5 := by
    rw [List.length_set]
    exact hcl
  refine ⟨(List.filter (fun l => (vocab_id_match vu l).isNone) lines ++
      [String.intercalate DELIMITER (g.set 3 version) ++ "\n",
       String.intercalate DELIMITER (c.set 3 version)]).filterMap
    (fun l => vocab_id_match vu l), ?_⟩
  rw [append_vocabulary_spec version _ _ (g.set 3 version) (c.set 3 version)
    hlookupG hlg hlookupC hlc]
  have hsetg : (g.set 3 version).set 3 version = g.set 3 version := List.set_set ..
  have hsetc : (c.set 3 version).set 3 version = c.set 3 version := List.set_set ..
  rw [hsetg, hsetc]
  have hm : ∀ l, vocab_id_match (setRow (setRow vu AOU_GEN_ID (g.set 3 version))
      AOU_CUSTOM_ID (c.set 3 version)) l = vocab_id_match vu l := fun l => by
    rw [vocab_id_match_setRow, vocab_id_match_setRow]
  have hpg : (vocab_id_match vu
      (String.intercalate DELIMITER (g.set 3 version) ++ "\n")).isNone = false := by
    cases hx : vocab_id_match vu (String.intercalate DELIMITER (g.set 3 version) ++ "\n") with
    | none => rw [hx] at hgin; simp at hgin
    | some v => simp
  have hpc : (vocab_id_match vu
      (String.intercalate DELIMITER (c.set 3 version))).isNone = false := by
    cases hx : vocab_id_match vu (String.intercalate DELIMITER (c.set 3 version)) with
    | none => rw [hx] at hcin; simp at hcin
    | some v => simp
  have hC1 : setRow (setRow (setRow vu AOU_GEN_ID (g.set 3 version))
        AOU_CUSTOM_ID (c.set 3 version)) AOU_GEN_ID (g.set 3 version)
      = setRow (setRow vu AOU_GEN_ID (g.set 3 version))
        AOU_CUSTOM_ID (c.set 3 version) := by
    rw [setRow_comm _ _ _ _ _ (Ne.symm hne), setRow_setRow_same]
  have hC2 : ∀ X : VocabUpdates, setRow (setRow X AOU_CUSTOM_ID (c.set 3 version))
      AOU_CUSTOM_ID (c.set 3 version) = setRow X AOU_CUSTOM_ID (c.set 3 version) :=
    fun X => setRow_setRow_same X AOU_CUSTOM_ID (c.set 3 version) (c.set 3 version)
  rw [hC1, hC2]
  simp only [hm, List.filter_append, filter_idem, List.filter_cons, hpg, hpc,
    Bool.false_eq_true, if_false, List.filter_nil, List.append_nil]

/-- Witness for C4: with a newline-terminated input line, re-reading the
written bytes returns exactly the written lines and the second run
reproduces the same output and mapping state. -/
theorem c4_fixed_point_witness :
    splitLines (String.join ["SNOMED\tfoo\n",
        "AoU_General\tAoU General\tref\tv\t44819268\n",
        "AoU_Custom\tAoU Custom\tref\tv\t0"]) =
      ["SNOMED\tfoo\n", "AoU_General\tAoU General\tref\tv\t44819268\n",
       "AoU_Custom\tAoU Custom\tref\tv\t0"] ∧
      ∃ warns2, append_vocabulary "v"
        [("AoU_General", ["AoU_General", "AoU General", "ref", "v", "44819268"]),
         ("AoU_Custom", ["AoU_Custom", "AoU Custom", "ref", "v", "0"])]
        (splitLines (String.join ["SNOMED\tfoo\n",
          "AoU_General\tAoU General\tref\tv\t44819268\n",
          "AoU_Custom\tAoU Custom\tref\tv\t0"])) =
        some (["SNOMED\tfoo\n", "AoU_General\tAoU General\tref\tv\t44819268\n",
               "AoU_Custom\tAoU Custom\tref\tv\t0"], warns2,
              [("AoU_General", ["AoU_General", "AoU General", "ref", "v", "44819268"]),
               ("AoU_Custom", ["AoU_Custom", "AoU Custom", "ref", "v", "0"])]) :=
  c4_fixed_point "v"
    [("AoU_General", ["AoU_General", "AoU General", "ref", "x", "44819268"]),
     ("AoU_Custom", ["AoU_Custom", "AoU Custom", "ref", "y", "0"])]
    ["SNOMED\tfoo\n"]
    ["AoU_General", "AoU General", "ref", "x", "44819268"]
    ["AoU_Custom", "AoU Custom", "ref", "y", "0"]
    ["SNOMED\tfoo\n",
     "AoU_General\tAoU General\tref\tv\t44819268\n",
     "AoU_Custom\tAoU Custom\tref\tv\t0"]
    []
    [("AoU_General", ["AoU_General", "AoU General", "ref", "v", "44819268"]),
     ("AoU_Custom", ["AoU_Custom", "AoU Custom", "ref", "v", "0"])]
    rfl rfl rfl rfl rfl rfl (by decide) rfl rfl (by decide) rfl

/-- C8: the output of `append_concepts` is the token-free surviving input
records followed by the verbatim-appended custom-concept block (minus the
one leading record skipped exactly when the header heuristic fires); every
record outside the appended block is free of reserved-vocabulary-id tokens. -/
theorem c8_no_reserved_tokens (vu : VocabUpdates) (has_header : Bool)
    (inLines aouLines : List String) :
    (append_concepts vu has_header inLines aouLines).1 =
      inLines.filter (fun l => (vocab_id_match vu l).isNone)
        ++ aouLines.drop (if has_header then 1 else 0) ∧
      ∀ l ∈ inLines.filter (fun l => (vocab_id_match vu l).isNone),
        vocab_id_match vu l = none := by
  constructor
  · simp only [append_concepts, copyFilter_eq]
    cases has_header
    · simp
    · simp
  · intro l hl
    rw [List.mem_filter] at hl
    have h2 := hl.2
    cases hx : vocab_id_match vu l with
    | none => rfl
    | some v =>
      rw [hx] at h2
      simp at h2

/-- Witness for C8: a conflicting concept record is dropped, the clean one
survives, and the custom-concept block is appended minus its header. -/
theorem c8_no_reserved_tokens_witness :
    (append_concepts
      [("AoU_General", ["AoU_General"]), ("AoU_Custom", ["AoU_Custom"])] true
      ["1\tSNOMED\n", "2\tAoU_General\n"] ["hdr\n", "9\tAoU_Custom\n"]).1 =
      ["1\tSNOMED\n", "9\tAoU_Custom\n"] := by
  rw [(c8_no_reserved_tokens
    [("AoU_General", ["AoU_General"]), ("AoU_Custom", ["AoU_Custom"])] true
    ["1\tSNOMED\n", "2\tAoU_General\n"] ["hdr\n", "9\tAoU_Custom\n"]).1]
  exact rfl

theorem findStep_skip (acc : Option String × Option String) (fn : String)
    (h1 : table_name_of fn ≠ CONCEPT) (h2 : table_name_of fn ≠ VOCABULARY) :
    findStep acc fn = acc := by
  rw [findStep, if_neg h1, if_neg h2]

theorem foldl_findStep_const (file_names : List String)
    (h : ∀ fn ∈ file_names, table_name_of fn ≠ CONCEPT ∧ table_name_of fn ≠ VOCABULARY)
    (acc : Option String × Option String) :
    file_names.foldl findStep acc = acc := by
  induction file_names generalizing acc with
  | nil => rfl
  | cons x xs ih =>
    rw [List.foldl_cons,
      findStep_skip acc x (h x (List.mem_cons_self x xs)).1 (h x (List.mem_cons_self x xs)).2]
    exact ih (fun fn hfn => h fn (List.mem_cons_of_mem x hfn)) acc

/-- C7: when no directory entry's lower-cased extension-stripped base name
matches either required logical resource name, `add_aou_vocabs` fails with
the concept-not-found IOError raised before anything is written; in the
embedding every write is part of the success payload, so the error return
carries no writes. -/
theorem c7_missing_resources (version : String) (vu : VocabUpdates)
    (has_header : Bool) (aouLines : List String) (file_names : List String)
    (contents : String → List String)
    (h : ∀ fn ∈ file_names, table_name_of fn ≠ CONCEPT ∧ table_name_of fn ≠ VOCABULARY) :
    add_aou_vocabs version vu has_header aouLines file_names contents =
      .error "CONCEPT.csv was not found" := by
  have hf : findPaths file_names = (none, none) := by
    rw [findPaths]
    exact foldl_findStep_const file_names h (none, none)
  simp only [add_aou_vocabs, hf]

/-- Witness for C7: a directory with neither resource file fails with the
concept-not-found error. -/
theorem c7_missing_resources_witness :
    add_aou_vocabs "v" [] false [] ["measurement.csv", "drug_exposure.csv"]
      (fun _ => []) = .error "CONCEPT.csv was not found" :=
  c7_missing_resources "v" [] false [] ["measurement.csv", "drug_exposure.csv"]
    (fun _ => []) (by decide)

/-- C10: `get_aou_vocabulary_row` mutates the shared template mapping: after
a call for `vocab_id`, the mapping entry for that id holds the row with its
version slot (index length - 2, Python index -2) overwritten with the
fingerprint, and whenever the stored value differed the resulting mapping
state differs from the input state, so the mutation is observable by every
later reader of the mapping, not confined to the returned string. -/
theorem c10_template_mutation (vu : VocabUpdates) (vocab_id version : String)
    (row : List String) (s : String) (vu' : VocabUpdates)
    (h1 : vu.lookup vocab_id = some row) (h2 : 2 ≤ row.length)
    (h3 : get_aou_vocabulary_row vu vocab_id version = some (s, vu')) :
    vu'.lookup vocab_id = some (row.set (row.length - 2) version) ∧
      (row.get? (row.length - 2) ≠ some version → vu' ≠ vu) := by
  rw [get_aou_vocabulary_row, h1] at h3
  simp only [h2, if_true, Option.some.injEq, Prod.mk.injEq] at h3
  obtain ⟨-, hv⟩ := h3
  subst hv
  constructor
  · exact lookup_setRow_self vu vocab_id _ row h1
  · intro hget heq
    have hl := lookup_setRow_self vu vocab_id (row.set (row.length - 2) version) row h1
    rw [heq, h1] at hl
    have hrr : row = row.set (row.length - 2) version := by
      simpa using hl
    have hi : row.length - 2 < row.length := by omega
    have hgv : row.get? (row.length - 2) = some version := by
      rw [hrr, List.length_set, List.get?_eq_getElem?]
      exact List.getElem?_set_eq_of_lt (a := version) hi
    exact hget hgv

/-- Witness for C10: after rendering the general row with fingerprint v1,
the mapping's stored template carries v1 and differs from the input. -/
theorem c10_template_mutation_witness :
    ([("AoU_General", ["AoU_General", "name", "ref", "v1", "0"])] : VocabUpdates).lookup
        "AoU_General" = some ["AoU_General", "name", "ref", "v1", "0"] ∧
      ([("AoU_General", ["AoU_General", "name", "ref", "v1", "0"])] : VocabUpdates)
        ≠ [("AoU_General", ["AoU_General", "name", "ref", "old", "0"])] := by
  have h := c10_template_mutation
    [("AoU_General", ["AoU_General", "name", "ref", "old", "0"])]
    "AoU_General" "v1" ["AoU_General", "name", "ref", "old", "0"]
    "AoU_General\tname\tref\tv1\t0"
    [("AoU_General", ["AoU_General", "name", "ref", "v1", "0"])]
    rfl (by decide) rfl
  exact ⟨h.1, h.2 (by decide)⟩

end Curation
